import Mathlib

/-!
Verification development for the Commute Briefing repository.

This file embeds the generation orchestrator (`App.tsx`, given as
`src/unnamed/part_001`), the playback engine (`Player.tsx`, given as
`src/unnamed/part_000`) and the audio service (`src/services/geminiService.ts`)
as executable Lean definitions, and proves the specification claims about them.

Modelling conventions:
- JavaScript strings are Lean `String`s; thrown JS errors are modelled by their
  `message` string, and fallible operations return `Except String α`.
- The two remote calls (summarization, speech synthesis) are suspension points;
  their outcomes are carried by resume events, so the orchestrator is a step
  function on an explicit state, driven by a list of events.
- `audioContext.currentTime` is a rational number passed to each playback
  operation; audio samples are rationals (JS float division by 32768 is exact
  for 16-bit integers, so no precision is lost by this choice).
-/

namespace CommuteBriefing

/-! ## JavaScript string primitives used by the source -/

/-- Does the needle match at the head of the haystack? Helper for `strIncludes`. -/
def matchesAt : List Char → List Char → Bool
  | [], _ => true
  | _ :: _, [] => false
  | n :: ns, h :: hs => n == h && matchesAt ns hs

/-- Scan of the haystack for the needle. Helper for `strIncludes`. -/
def hasSubAux (needle : List Char) : List Char → Bool
  | [] => matchesAt needle []
  | h :: hs => matchesAt needle (h :: hs) || hasSubAux needle hs

/-- Model of JavaScript `hay.includes(needle)`. -/
def strIncludes (hay needle : String) : Bool :=
  hasSubAux needle.data hay.data

/-- ASCII lowering of one character, as `String.prototype.toLowerCase` acts on
the ASCII error messages appearing in this program. -/
def lowerChar (c : Char) : Char :=
  if 65 ≤ c.toNat ∧ c.toNat ≤ 90 then Char.ofNat (c.toNat + 32) else c

/-- Model of JavaScript `s.toLowerCase()` (ASCII fragment). -/
def toLowerStr (s : String) : String :=
  ⟨s.data.map lowerChar⟩

/-- Model of JavaScript `x || d` for an optional string `x`: `undefined`/missing
and the empty string are falsy and select the default. -/
def jsOrStr (x : Option String) (d : String) : String :=
  match x with
  | none => d
  | some t => if t = "" then d else t

/-- Model of JavaScript `m || d` for a string `m` (empty string is falsy). -/
def jsOrMsg (m d : String) : String :=
  if m = "" then d else m

/-! ## geminiService.ts: base64 and PCM16 decoding -/

/-- Index of a character in the standard base64 alphabet, by ASCII code:
`A`-`Z` are 65-90, `a`-`z` are 97-122, `0`-`9` are 48-57, then `+` and `/`. -/
def b64Index (c : Char) : Option Nat :=
  if 65 ≤ c.toNat ∧ c.toNat ≤ 90 then some (c.toNat - 65)
  else if 97 ≤ c.toNat ∧ c.toNat ≤ 122 then some (c.toNat - 97 + 26)
  else if 48 ≤ c.toNat ∧ c.toNat ≤ 57 then some (c.toNat - 48 + 52)
  else if c = '+' then some 62
  else if c = '/' then some 63
  else none

/-- Base64 decoding of a character list into bytes, modelling `atob` composed
with the byte extraction loop of `decode` in geminiService.ts: groups of four
base64 digits yield three bytes; a final group may carry one or two `=` padding
characters; anything else (including a length not divisible by 4) throws. -/
def atobChars : List Char → Option (List Nat)
  | [] => some []
  | c1 :: c2 :: c3 :: c4 :: rest =>
      match b64Index c1, b64Index c2 with
      | some a, some b =>
          if c3 = '=' then
            if c4 = '=' then
              if rest = [] then some [a * 4 + b / 16] else none
            else none
          else
            match b64Index c3 with
            | some c =>
                if c4 = '=' then
                  if rest = [] then some [a * 4 + b / 16, b % 16 * 16 + c / 4]
                  else none
                else
                  match b64Index c4 with
                  | some d =>
                      match atobChars rest with
                      | some tail =>
                          some ((a * 4 + b / 16) :: (b % 16 * 16 + c / 4) ::
                                (c % 4 * 64 + d) :: tail)
                      | none => none
                  | none => none
            | none => none
      | _, _ => none
  | _ => none

/-- Model of `decode` (geminiService.ts lines 15-23): base64-decode the payload
(`atob`) and store each character code into a `Uint8Array`, whose element store
coerces modulo 256; `none` models the `InvalidCharacterError` thrown by `atob`
on malformed input. -/
def decode (base64 : String) : Option (List Nat) :=
  (atobChars base64.data).map (fun codes => codes.map (fun y => y % 256))

/-- Reinterpretation of two bytes as one little-endian 16-bit signed integer,
as `new Int16Array(data.buffer)` does on the platform's (little-endian) layout. -/
def toInt16 (lo hi : Nat) : Int :=
  if lo + 256 * hi < 32768 then ((lo + 256 * hi : Nat) : Int)
  else ((lo + 256 * hi : Nat) : Int) - 65536

/-- The `Int16Array` view of a byte list: consecutive little-endian pairs. -/
def bytesToInt16List : List Nat → List Int
  | lo :: hi :: rest => toInt16 lo hi :: bytesToInt16List rest
  | _ => []

/-- Model of a Web Audio `AudioBuffer` as produced by `decodeAudioData`. -/
structure AudioBufferModel where
  numChannels : Nat
  frameCount : Nat
  sampleRate : Nat
  channels : List (List ℚ)
deriving DecidableEq, Repr

instance : DecidableEq (Except String AudioBufferModel) := fun a b =>
  match a, b with
  | .ok x, .ok y =>
      if h : x = y then isTrue (by rw [h]) else isFalse (by simp [h])
  | .error x, .error y =>
      if h : x = y then isTrue (by rw [h]) else isFalse (by simp [h])
  | .ok _, .error _ => isFalse (by simp)
  | .error _, .ok _ => isFalse (by simp)

/-- Model of `decodeAudioData` (geminiService.ts lines 25-42): view the bytes as
16-bit signed integers (`none` models the `RangeError` thrown by the
`Int16Array` constructor on an odd byte count), split into `frameCount` frames,
and normalize sample `i` of each channel to `dataInt16[i * numChannels + channel]
/ 32768.0`. -/
def decodeAudioData (data : List Nat) (sampleRate numChannels : Nat) :
    Option AudioBufferModel :=
  if data.length % 2 = 0 then
    let dataInt16 := bytesToInt16List data
    let frameCount := dataInt16.length / numChannels
    some { numChannels := numChannels
           frameCount := frameCount
           sampleRate := sampleRate
           channels := (List.range numChannels).map (fun channel =>
             (List.range frameCount).map (fun i =>
               ((dataInt16.getD (i * numChannels + channel) 0 : Int) : ℚ) / 32768)) }
  else none

/-! ## geminiService.ts: the two remote operations -/

/-- Error message thrown by `getAIClient` when the API key is absent. -/
def apiKeyMissingMsg : String :=
  "API_KEY environment variable is missing."

/-- The substitute summary returned when the model response carries no text
(geminiService.ts line 73, `response.text || ...`). -/
def summaryFallback : String :=
  "I\x27m sorry, I couldn\x27t generate a summary at this time."

/-- Model of `summarizeArticles` (geminiService.ts lines 46-74). The remote
call's outcome is passed in: a thrown error, or a response whose `text` field
may be missing or empty. Note the source returns `response.text ||` a fixed
apology string, so a missing or empty text is a *success* carrying the
fallback, not an error. -/
def summarizeArticles (apiKey : Option String)
    (remote : Except String (Option String)) : Except String String :=
  match apiKey with
  | none => .error apiKeyMissingMsg
  | some _ =>
      match remote with
      | .error e => .error e
      | .ok text => .ok (jsOrStr text summaryFallback)

/-- The synthesis response as read by `generateSpeech`:
`candidates?.[0]?.content?.parts?.[0]?.inlineData?.data`, an optional base64
string. -/
structure TtsResponse where
  data : Option String
deriving DecidableEq, Repr

/-- Message of the error thrown when the synthesis response has no payload data
(geminiService.ts line 100). -/
def noAudioDataMsg : String :=
  "No audio data returned from Gemini."

/-- Message modelling the `InvalidCharacterError` thrown by `atob`. -/
def invalidBase64Msg : String :=
  "InvalidCharacterError: the string to be decoded is not correctly encoded."

/-- Message modelling the `RangeError` thrown by the `Int16Array` constructor
on a byte length that is not a multiple of 2. -/
def oddByteLengthMsg : String :=
  "RangeError: byte length of Int16Array should be a multiple of 2."

/-- Model of `generateSpeech` (geminiService.ts lines 76-109): require the API
key, propagate a remote failure, throw `noAudioDataMsg` when the payload data is
absent (or the empty string, which is falsy in `if (!base64Audio)`), otherwise
base64-decode and PCM16-decode at 24000 Hz into one channel. -/
def generateSpeech (apiKey : Option String)
    (remote : Except String TtsResponse) : Except String AudioBufferModel :=
  match apiKey with
  | none => .error apiKeyMissingMsg
  | some _ =>
      match remote with
      | .error e => .error e
      | .ok r =>
          match r.data with
          | none => .error noAudioDataMsg
          | some b64 =>
              if b64 = "" then .error noAudioDataMsg
              else
                match decode b64 with
                | none => .error invalidBase64Msg
                | some audioBytes =>
                    match decodeAudioData audioBytes 24000 1 with
                    | some buf => .ok buf
                    | none => .error oddByteLengthMsg

/-! ## App.tsx: error classification and orchestrator state -/

/-- Model of `getFriendlyErrorMessage` (App.tsx lines 14-37): lower-case the
message and test the classification substrings in source order; the final
fallback is `error.message ||` a generic message. -/
def getFriendlyErrorMessage (errMsg : String) : String :=
  let msg := toLowerStr errMsg
  if strIncludes msg "api_key" || strIncludes msg "apikey" then
    "API Key is missing or invalid. Please check your settings."
  else if strIncludes msg "quota" || strIncludes msg "429" then
    "API usage limit exceeded. Please try again later."
  else if strIncludes msg "safety" || strIncludes msg "blocked" ||
          strIncludes msg "harmful" then
    "Content was flagged by safety filters. Please review and edit your articles."
  else if strIncludes msg "network" || strIncludes msg "fetch" ||
          strIncludes msg "connection" then
    "Network connection error. Please check your internet and try again."
  else if strIncludes msg "503" || strIncludes msg "overloaded" ||
          strIncludes msg "service unavailable" then
    "The AI service is currently overloaded. Please wait a moment and try again."
  else if strIncludes msg "no audio data" then
    "Audio generation failed to return data. Please try again."
  else
    jsOrMsg errMsg "An unexpected error occurred. Please try again."

/-- A queued article (types.ts). -/
structure Article where
  id : String
  title : String
  content : String
  timestamp : Nat
deriving DecidableEq, Repr

/-- The `GenerationState` status tag together with its error message
(types.ts: status plus optional `error`). -/
inductive GenStatus where
  | idle
  | summarizing
  | generating_audio
  | ready
  | error (msg : String)
deriving DecidableEq, Repr

/-- The orchestrator-relevant state of the `App` component: the article queue,
the generation state, the published summary and audio buffer, and
`lastGenRequestRef` (App.tsx line 52). -/
structure AppState where
  articles : List Article
  generationState : GenStatus
  summaryText : Option String
  audioBuffer : Option AudioBufferModel
  lastGenRequest : Nat
deriving DecidableEq, Repr

/-- Environment configuration: the value of `process.env.API_KEY`. -/
structure Config where
  apiKey : Option String

/-- Initial `App` state (all `useState` initializers and the ref's `0`). -/
def initialAppState : AppState :=
  { articles := []
    generationState := .idle
    summaryText := none
    audioBuffer := none
    lastGenRequest := 0 }

/-- Events driving the orchestrator. `generate t` is the synchronous prefix of
`handleGenerate` with issue timestamp `t` (`Date.now()`); the two resume events
carry the outcome of the corresponding awaited remote call for the request
issued at `t` and run the code after that suspension point. -/
inductive Event where
  | addArticle (a : Article)
  | removeArticle (id : String)
  | generate (t : Nat)
  | summaryResume (t : Nat) (remote : Except String (Option String))
  | audioResume (t : Nat) (remote : Except String TtsResponse)

/-- Effect `Clear state when list becomes empty` (App.tsx lines 140-146): when
the article list is empty, drop the audio buffer and summary and force the
generation state back to idle. Note it does not touch `lastGenRequest`. -/
def emptyReset (s : AppState) : AppState :=
  if s.articles = [] then
    { s with audioBuffer := none, summaryText := none, generationState := .idle }
  else s

/-- One orchestrator step. `generate` mirrors App.tsx lines 89-100 (guard on an
empty queue, record the issue timestamp in the ref, clear summary and audio,
enter `summarizing`). Each resume first re-checks the captured timestamp against
the ref and silently returns when stale (lines 107, 114, 119); a current summary
success stores the summary and enters `generating_audio`; a current audio
success stores the buffer and enters `ready`; a current failure enters
`error` with the classified message (lines 118-126). -/
def step (cfg : Config) (e : Event) (s : AppState) : AppState :=
  match e with
  | .addArticle a => { s with articles := s.articles ++ [a] }
  | .removeArticle id =>
      emptyReset { s with articles := s.articles.filter (fun a => a.id != id) }
  | .generate t =>
      if s.articles = [] then s
      else { s with lastGenRequest := t
                    summaryText := none
                    audioBuffer := none
                    generationState := .summarizing }
  | .summaryResume t remote =>
      if s.lastGenRequest = t then
        match summarizeArticles cfg.apiKey remote with
        | .ok summary =>
            { s with summaryText := some summary
                     generationState := .generating_audio }
        | .error err =>
            { s with generationState := .error (getFriendlyErrorMessage err) }
      else s
  | .audioResume t remote =>
      if s.lastGenRequest = t then
        match generateSpeech cfg.apiKey remote with
        | .ok buf =>
            { s with audioBuffer := some buf
                     generationState := .ready }
        | .error err =>
            { s with generationState := .error (getFriendlyErrorMessage err) }
      else s

/-- Run a list of events from a state. -/
def runTrace (cfg : Config) (tr : List Event) (s : AppState) : AppState :=
  tr.foldl (fun st e => step cfg e st) s

/-- The request timestamp a resume event belongs to, if any. -/
def eventRequestId : Event → Option Nat
  | .summaryResume t _ => some t
  | .audioResume t _ => some t
  | _ => none

/-! ## Player.tsx: the playback engine -/

/-- An active `AudioBufferSourceNode`: its `detune.value` and the offset passed
to `source.start(0, offset)`. A source held in `sourceNodeRef` always has its
`onended` handler attached (pause and stop detach the handler exactly when they
null the ref), so detachment is modelled by the source's absence. -/
structure Source where
  detune : Int
  startOffset : ℚ
deriving DecidableEq, Repr

/-- The playback engine's state: `isPlaying`, `progress` (a percentage in the
source), the `pitch` state in cents, `sourceNodeRef`, `startTimeRef` and
`pauseTimeRef`. -/
structure PlayerState where
  isPlaying : Bool
  progress : ℚ
  pitch : Int
  source : Option Source
  startTime : ℚ
  pauseTime : ℚ
deriving DecidableEq, Repr

/-- Initial `Player` state (all `useState` and ref initializers). -/
def initialPlayerState : PlayerState :=
  { isPlaying := false
    progress := 0
    pitch := 0
    source := none
    startTime := 0
    pauseTime := 0 }

/-- Value sanitization of the pitch range input (Player.tsx lines 221-229):
an `<input type=range min=-400 max=400>` clamps any assigned value to the
nearest bound of [-400, 400], so `setPitch(Number(e.target.value))` only ever
receives clamped values. -/
def clampPitch (cents : Int) : Int :=
  max (-400) (min 400 cents)

/-- The pitch control path: the range input delivers the clamped value to the
`setPitch` state setter, and the `useEffect` on `[pitch]` (Player.tsx lines
37-41) writes the new value to the live source's `detune.value` without
recreating the source. -/
def setPitchOp (cents : Int) (s : PlayerState) : PlayerState :=
  let p := clampPitch cents
  { s with pitch := p
           source := s.source.map (fun src => { src with detune := p }) }

/-- Model of `playAudio` (Player.tsx lines 70-99): create a source over the
buffer with `detune.value = pitch`, start it at offset `pauseTimeRef.current`,
capture `audioContext.currentTime` as the reference start time, and set
`isPlaying`. The `onended` registration is modelled by `naturalEnd` below. -/
def playAudio (now : ℚ) (s : PlayerState) : PlayerState :=
  { s with source := some { detune := s.pitch, startOffset := s.pauseTime }
           startTime := now
           isPlaying := true }

/-- Model of `pauseAudio` (Player.tsx lines 101-111): only when a source is
active, detach its `onended` handler, stop it, null the ref, accumulate
`currentTime - startTimeRef` into `pauseTimeRef`, and clear `isPlaying`. -/
def pauseAudio (now : ℚ) (s : PlayerState) : PlayerState :=
  match s.source with
  | none => s
  | some _ =>
      { s with source := none
               pauseTime := s.pauseTime + (now - s.startTime)
               isPlaying := false }

/-- Model of `stopAudio` (Player.tsx lines 113-123): detach and stop any active
source, clear `isPlaying`, reset `pauseTimeRef` to 0 and progress to 0. -/
def stopAudio (s : PlayerState) : PlayerState :=
  { s with source := none
           isPlaying := false
           pauseTime := 0
           progress := 0 }

/-- Model of the `onended` completion callback (Player.tsx lines 87-96): it
only runs for a source that was not explicitly stopped (pause and stop detach
the handler, modelled by the absent source); on a natural end it clears
`isPlaying`, resets `pauseTimeRef` to 0, reports 100% progress and nulls the
ref. -/
def naturalEnd (s : PlayerState) : PlayerState :=
  match s.source with
  | none => s
  | some _ =>
      { s with isPlaying := false
               pauseTime := 0
               progress := 100
               source := none }

/-- Model of one `updateProgress` tick (Player.tsx lines 43-60): compute
`elapsed = currentTime - startTimeRef + pauseTimeRef` and report
`min(elapsed / duration * 100, 100)`; `duration` is `audioBuffer.duration`. -/
def updateProgress (duration now : ℚ) (s : PlayerState) : PlayerState :=
  { s with progress := min ((now - s.startTime + s.pauseTime) / duration * 100) 100 }

/-- Model of `togglePlay` (Player.tsx lines 125-135): pause when playing;
otherwise reset the paused offset when the previous playback reached the end,
then play. -/
def togglePlay (now : ℚ) (s : PlayerState) : PlayerState :=
  if s.isPlaying then pauseAudio now s
  else playAudio now (if 100 ≤ s.progress then { s with pauseTime := 0 } else s)

/-! ## Supporting lemmas on the orchestrator step function -/

/-- Running the empty trace is the identity. -/
lemma runTrace_nil (cfg : Config) (s : AppState) : runTrace cfg [] s = s := rfl

/-- Running a cons trace steps once and continues. -/
lemma runTrace_cons (cfg : Config) (e : Event) (tr : List Event) (s : AppState) :
    runTrace cfg (e :: tr) s = runTrace cfg tr (step cfg e s) := rfl

/-- Running an appended trace runs the two halves in order. -/
lemma runTrace_append (cfg : Config) (tr₁ tr₂ : List Event) (s : AppState) :
    runTrace cfg (tr₁ ++ tr₂) s = runTrace cfg tr₂ (runTrace cfg tr₁ s) := by
  simp [runTrace, List.foldl_append]

/-- Only a `generate` event writes `lastGenRequestRef`. -/
lemma step_preserves_lastGen (cfg : Config) (e : Event) (s : AppState)
    (h : ∀ t, e ≠ Event.generate t) :
    (step cfg e s).lastGenRequest = s.lastGenRequest := by
  cases e with
  | addArticle a => rfl
  | removeArticle id =>
      simp only [step, emptyReset]
      split <;> rfl
  | generate t => exact absurd rfl (h t)
  | summaryResume t r =>
      by_cases hc : s.lastGenRequest = t
      · simp only [step, if_pos hc]
        cases summarizeArticles cfg.apiKey r <;> rfl
      · simp [step, hc]
  | audioResume t r =>
      by_cases hc : s.lastGenRequest = t
      · simp only [step, if_pos hc]
        cases generateSpeech cfg.apiKey r <;> rfl
      · simp [step, hc]

/-- A trace without `generate` events leaves `lastGenRequestRef` unchanged. -/
lemma runTrace_preserves_lastGen (cfg : Config) (tr : List Event) (s : AppState)
    (h : ∀ t, Event.generate t ∉ tr) :
    (runTrace cfg tr s).lastGenRequest = s.lastGenRequest := by
  induction tr generalizing s with
  | nil => rfl
  | cons e rest ih =>
      rw [runTrace_cons,
          ih (step cfg e s) (fun t ht => h t (List.mem_cons_of_mem _ ht)),
          step_preserves_lastGen cfg e s
            (fun t he => h t (by rw [← he]; exact List.mem_cons_self _ _))]

/-- The staleness guard: a resume belonging to a request other than the one
recorded in `lastGenRequestRef` changes nothing at all. -/
lemma stale_resume_noop (cfg : Config) (s : AppState) (e : Event) (i : Nat)
    (he : eventRequestId e = some i) (h : s.lastGenRequest ≠ i) :
    step cfg e s = s := by
  cases e with
  | addArticle a => simp [eventRequestId] at he
  | removeArticle id => simp [eventRequestId] at he
  | generate t => simp [eventRequestId] at he
  | summaryResume t r =>
      simp only [eventRequestId, Option.some.injEq] at he
      subst he
      simp [step, h]
  | audioResume t r =>
      simp only [eventRequestId, Option.some.injEq] at he
      subst he
      simp [step, h]

/-! ## Claim C1 -/

/-- Claim C1: in any sequence of overlapping `generate` calls, once the
last-issued call (issue timestamp `j`, issued with a non-empty queue, with no
later `generate` in the remainder of the trace) is in place, the resumption of
any other request `i` — summary or audio, success or failure — leaves the
entire application state unchanged, so only the last-issued call's result is
ever published. -/
theorem last_issued_wins (cfg : Config) (s : AppState) (tr₁ tr₂ : List Event)
    (j i : Nat) (e : Event)
    (hart : (runTrace cfg tr₁ s).articles ≠ [])
    (hno : ∀ t, Event.generate t ∉ tr₂)
    (hij : i ≠ j)
    (he : eventRequestId e = some i) :
    runTrace cfg ((tr₁ ++ Event.generate j :: tr₂) ++ [e]) s
      = runTrace cfg (tr₁ ++ Event.generate j :: tr₂) s := by
  rw [runTrace_append]
  have hX : (runTrace cfg (tr₁ ++ Event.generate j :: tr₂) s).lastGenRequest = j := by
    rw [runTrace_append, runTrace_cons, runTrace_preserves_lastGen cfg tr₂ _ hno]
    simp [step, hart]
  exact stale_resume_noop cfg _ e i he (by rw [hX]; exact fun hh => hij hh.symm)

/-- Witness for C1: a second request (timestamp 2) supersedes the first
(timestamp 1); the first request's summary success is then dropped whole. -/
theorem last_issued_wins_witness :
    runTrace ⟨some "k"⟩
        (([Event.addArticle ⟨"a1", "T", "C", 0⟩, Event.generate 1] ++
            Event.generate 2 :: []) ++
          [Event.summaryResume 1 (Except.ok (some "old"))])
        initialAppState
      = runTrace ⟨some "k"⟩
          ([Event.addArticle ⟨"a1", "T", "C", 0⟩, Event.generate 1] ++
            Event.generate 2 :: [])
          initialAppState :=
  last_issued_wins ⟨some "k"⟩ initialAppState
    [Event.addArticle ⟨"a1", "T", "C", 0⟩, Event.generate 1] [] 2 1
    (Event.summaryResume 1 (Except.ok (some "old")))
    (by decide) (fun t ht => absurd ht (List.not_mem_nil _)) (by decide) rfl

/-! ## Claim C2 -/

/-- Claim C2 counterexample: the queue becomes empty while request 5 is
`summarizing`; the state is indeed forced to `idle`, but `lastGenRequestRef` is
not touched, so request 5 is *not* stale: its later summary success passes the
staleness check, publishes the summary and moves the state to
`generating_audio` — contradicting the claim that the completion causes no
state transition and publishes nothing. -/
theorem queue_empty_not_stale_counterexample :
    (runTrace ⟨some "k"⟩
        [Event.addArticle ⟨"a1", "T", "C", 0⟩, Event.generate 5,
         Event.removeArticle "a1"]
        initialAppState).generationState = GenStatus.idle ∧
    (runTrace ⟨some "k"⟩
        [Event.addArticle ⟨"a1", "T", "C", 0⟩, Event.generate 5,
         Event.removeArticle "a1"]
        initialAppState).articles = [] ∧
    (runTrace ⟨some "k"⟩
        [Event.addArticle ⟨"a1", "T", "C", 0⟩, Event.generate 5,
         Event.removeArticle "a1",
         Event.summaryResume 5 (Except.ok (some "hello"))]
        initialAppState).generationState = GenStatus.generating_audio ∧
    (runTrace ⟨some "k"⟩
        [Event.addArticle ⟨"a1", "T", "C", 0⟩, Event.generate 5,
         Event.removeArticle "a1",
         Event.summaryResume 5 (Except.ok (some "hello"))]
        initialAppState).summaryText = some "hello" := by
  decide

/-- Claim C2 (amended): when the queue becomes empty while a request is in
flight, the state is forcibly reset to `idle` and the summary and audio are
cleared, but the in-flight request is NOT marked stale (`lastGenRequestRef` is
unchanged); unless a newer `generate` call is issued first, the request's
eventual completion still passes the staleness check, causes a state transition
and publishes its result. -/
theorem queue_empty_reset_without_stale_marking (cfg : Config) (k : String)
    (hk : cfg.apiKey = some k) (s : AppState) (a : Article)
    (h1 : s.articles = [a]) (t : Nat) (ht : s.lastGenRequest = t) (str : String)
    (hstr : str ≠ "") :
    (step cfg (Event.removeArticle a.id) s).generationState = GenStatus.idle ∧
    (step cfg (Event.removeArticle a.id) s).summaryText = none ∧
    (step cfg (Event.removeArticle a.id) s).audioBuffer = none ∧
    (step cfg (Event.removeArticle a.id) s).lastGenRequest = s.lastGenRequest ∧
    step cfg (Event.summaryResume t (Except.ok (some str)))
        (step cfg (Event.removeArticle a.id) s)
      = { step cfg (Event.removeArticle a.id) s with
            summaryText := some str
            generationState := GenStatus.generating_audio } := by
  have hrm : step cfg (Event.removeArticle a.id) s
      = { s with articles := []
                 audioBuffer := none
                 summaryText := none
                 generationState := GenStatus.idle } := by
    simp [step, h1, emptyReset]
  rw [hrm]
  refine ⟨rfl, rfl, rfl, rfl, ?_⟩
  simp [step, ht, summarizeArticles, hk, jsOrStr, hstr]

/-- Witness for the amended C2. -/
theorem queue_empty_reset_without_stale_marking_witness :
    step ⟨some "k"⟩ (Event.summaryResume 5 (Except.ok (some "hello")))
        (step ⟨some "k"⟩ (Event.removeArticle "a1")
          { articles := [⟨"a1", "T", "C", 0⟩]
            generationState := GenStatus.summarizing
            summaryText := none
            audioBuffer := none
            lastGenRequest := 5 })
      = { articles := []
          generationState := GenStatus.generating_audio
          summaryText := some "hello"
          audioBuffer := none
          lastGenRequest := 5 } :=
  (queue_empty_reset_without_stale_marking ⟨some "k"⟩ "k" rfl
    { articles := [⟨"a1", "T", "C", 0⟩]
      generationState := GenStatus.summarizing
      summaryText := none
      audioBuffer := none
      lastGenRequest := 5 }
    ⟨"a1", "T", "C", 0⟩ rfl 5 rfl "hello" (by decide)).2.2.2.2

/-! ## Claim C3 -/

/-- Claim C3 counterexample: a summarization response with no text is treated
as a *success*: the orchestrator publishes the fixed apology string as the
summary and proceeds to `generating_audio`, instead of surfacing a
remote-service failure and entering `error`. -/
theorem summary_fallback_counterexample :
    (runTrace ⟨some "k"⟩
        [Event.addArticle ⟨"a1", "T", "C", 0⟩, Event.generate 1,
         Event.summaryResume 1 (Except.ok none)]
        initialAppState).generationState = GenStatus.generating_audio ∧
    (runTrace ⟨some "k"⟩
        [Event.addArticle ⟨"a1", "T", "C", 0⟩, Event.generate 1,
         Event.summaryResume 1 (Except.ok none)]
        initialAppState).summaryText = some summaryFallback := by
  decide

/-- Claim C3 (amended): when the summarization response carries missing or
empty text, `summarizeArticles` substitutes a fixed apology string and the
orchestrator treats it as a success, publishing the substitute summary and
transitioning to `generating_audio`; only a rejected (thrown) summarization
call is classified and, if the request is still current, moves the state to
`error`. -/
theorem summarize_empty_yields_fallback_success (cfg : Config) (k : String)
    (hk : cfg.apiKey = some k) (s : AppState) (t : Nat) (ht : s.lastGenRequest = t)
    (r : Option String) (hr : r = none ∨ r = some "") (msg : String) :
    summarizeArticles cfg.apiKey (Except.ok r) = Except.ok summaryFallback ∧
    step cfg (Event.summaryResume t (Except.ok r)) s
      = { s with summaryText := some summaryFallback
                 generationState := GenStatus.generating_audio } ∧
    step cfg (Event.summaryResume t (Except.error msg)) s
      = { s with generationState := GenStatus.error (getFriendlyErrorMessage msg) } := by
  have h1 : summarizeArticles cfg.apiKey (Except.ok r) = Except.ok summaryFallback := by
    rcases hr with h | h <;> subst h <;> simp [summarizeArticles, hk, jsOrStr]
  refine ⟨h1, ?_, ?_⟩
  · simp [step, ht, h1]
  · simp [step, ht, summarizeArticles, hk]

/-- Witness for the amended C3. -/
theorem summarize_empty_yields_fallback_success_witness :
    step ⟨some "k"⟩ (Event.summaryResume 0 (Except.ok none)) initialAppState
      = { initialAppState with
            summaryText := some summaryFallback
            generationState := GenStatus.generating_audio } :=
  (summarize_empty_yields_fallback_success ⟨some "k"⟩ "k" rfl initialAppState 0 rfl
    none (Or.inl rfl) "x").2.1

/-! ## Claim C4 -/

/-- Claim C4: a synthesis response without payload data makes `generateSpeech`
throw the dedicated no-audio-data error; for a still-current request the
orchestrator classifies it into the distinct "no audio data" user message and
enters `error` with it — not the generic fallback and not the network message. -/
theorem no_audio_data_distinct_error (cfg : Config) (k : String)
    (hk : cfg.apiKey = some k) (s : AppState) (t : Nat) (ht : s.lastGenRequest = t)
    (r : TtsResponse) (hr : r.data = none) :
    generateSpeech cfg.apiKey (Except.ok r) = Except.error noAudioDataMsg ∧
    step cfg (Event.audioResume t (Except.ok r)) s
      = { s with generationState :=
            GenStatus.error "Audio generation failed to return data. Please try again." } ∧
    getFriendlyErrorMessage noAudioDataMsg
      = "Audio generation failed to return data. Please try again." ∧
    getFriendlyErrorMessage noAudioDataMsg
      ≠ "An unexpected error occurred. Please try again." ∧
    getFriendlyErrorMessage noAudioDataMsg
      ≠ "Network connection error. Please check your internet and try again." := by
  have hg : generateSpeech cfg.apiKey (Except.ok r) = Except.error noAudioDataMsg := by
    simp [generateSpeech, hk, hr]
  have hf : getFriendlyErrorMessage noAudioDataMsg
      = "Audio generation failed to return data. Please try again." := by decide
  refine ⟨hg, ?_, hf, by decide, by decide⟩
  simp [step, ht, hg, hf]

/-- Witness for C4. -/
theorem no_audio_data_distinct_error_witness :
    step ⟨some "k"⟩ (Event.audioResume 0 (Except.ok ⟨none⟩)) initialAppState
      = { initialAppState with
            generationState :=
              GenStatus.error "Audio generation failed to return data. Please try again." } :=
  (no_audio_data_distinct_error ⟨some "k"⟩ "k" rfl initialAppState 0 rfl ⟨none⟩ rfl).2.1

/-! ## Claim C5 -/

/-- Claim C5: the pitch control clamps every input to [-400, 400] (out-of-range
values go to the nearest bound, in-range values are stored as given), applies
the new value to a live source's detune in place — playback flags, reference
times and the accumulated offset are untouched, so playback is not restarted —
and the stored value is the detune of the source created by the next
`playAudio`. -/
theorem setPitch_clamps_and_applies_live (s : PlayerState) (c : Int) :
    (-400 ≤ (setPitchOp c s).pitch ∧ (setPitchOp c s).pitch ≤ 400) ∧
    (c < -400 → (setPitchOp c s).pitch = -400) ∧
    (400 < c → (setPitchOp c s).pitch = 400) ∧
    (-400 ≤ c → c ≤ 400 → (setPitchOp c s).pitch = c) ∧
    (∀ src, s.source = some src →
      (setPitchOp c s).source = some { src with detune := (setPitchOp c s).pitch }) ∧
    (s.source = none → (setPitchOp c s).source = none) ∧
    (setPitchOp c s).isPlaying = s.isPlaying ∧
    (setPitchOp c s).startTime = s.startTime ∧
    (setPitchOp c s).pauseTime = s.pauseTime ∧
    (setPitchOp c s).progress = s.progress ∧
    (∀ now, (playAudio now (setPitchOp c s)).source
      = some { detune := (setPitchOp c s).pitch, startOffset := s.pauseTime }) := by
  refine ⟨⟨?_, ?_⟩, ?_, ?_, ?_, ?_, ?_, rfl, rfl, rfl, rfl, ?_⟩
  · simp only [setPitchOp, clampPitch]
    omega
  · simp only [setPitchOp, clampPitch]
    omega
  · intro h
    simp only [setPitchOp, clampPitch]
    omega
  · intro h
    simp only [setPitchOp, clampPitch]
    omega
  · intro h1 h2
    simp only [setPitchOp, clampPitch]
    omega
  · intro src hsrc
    simp [setPitchOp, hsrc]
  · intro hnone
    simp [setPitchOp, hnone]
  · intro now
    simp [setPitchOp, playAudio]

/-- Witness for C5: an out-of-range input of 1000 cents is stored as 400. -/
theorem setPitch_clamps_and_applies_live_witness :
    (setPitchOp 1000 initialPlayerState).pitch = 400 ∧
    (setPitchOp 1000 initialPlayerState).source = none :=
  ⟨(setPitch_clamps_and_applies_live initialPlayerState 1000).2.2.1 (by norm_num),
   (setPitch_clamps_and_applies_live initialPlayerState 1000).2.2.2.2.2.1 rfl⟩

/-! ## Claim C6 -/

/-- Claim C6: for every playback state, `playAudio` after `stopAudio` starts
its source at offset 0 (the stop having zeroed the accumulated offset, whatever
it was); `pauseAudio` of an active source accumulates exactly `now - startTime`
onto the existing paused offset, and a following `playAudio` starts its source
at exactly that accumulated offset; pausing `d` seconds of context clock after
a `playAudio` adds exactly `d` to the offset and leaves the transport not
playing — in particular, from a fresh offset it leaves the offset at `d`. -/
theorem stop_play_zero_pause_play_resume (s : PlayerState) (now nowB t d : ℚ)
    (src : Source) (hsrc : s.source = some src) :
    (playAudio now (stopAudio s)).source
      = some { detune := s.pitch, startOffset := 0 } ∧
    (stopAudio s).pauseTime = 0 ∧
    (pauseAudio now s).pauseTime = s.pauseTime + (now - s.startTime) ∧
    (playAudio nowB (pauseAudio now s)).source
      = some { detune := s.pitch, startOffset := (pauseAudio now s).pauseTime } ∧
    (pauseAudio (t + d) (playAudio t s)).pauseTime = s.pauseTime + d ∧
    (pauseAudio (t + d) (playAudio t s)).isPlaying = false ∧
    (s.pauseTime = 0 → (pauseAudio (t + d) (playAudio t s)).pauseTime = d) := by
  have hacc : (pauseAudio (t + d) (playAudio t s)).pauseTime = s.pauseTime + d := by
    simp [playAudio, pauseAudio]
  refine ⟨?_, rfl, ?_, ?_, hacc, ?_, fun h0 => by rw [hacc, h0, zero_add]⟩
  · simp [playAudio, stopAudio]
  · simp [pauseAudio, hsrc]
  · simp [playAudio, pauseAudio, hsrc]
  · simp [playAudio, pauseAudio]

/-- Witness for C6, exercising a nonzero accumulated offset: play at time 0,
pause at time 2 (offset 2), play again at time 5; then stop-play restarts at
offset 0, a pause at time 8 accumulates `8 - 5` more, and a play-pause pair of
width 3 adds exactly 3. -/
theorem stop_play_zero_pause_play_resume_witness :
    (playAudio 9 (stopAudio
        (playAudio 5 (pauseAudio 2 (playAudio 0 initialPlayerState))))).source
      = some { detune := 0, startOffset := 0 } ∧
    (pauseAudio 8
        (playAudio 5 (pauseAudio 2 (playAudio 0 initialPlayerState)))).pauseTime
      = (playAudio 5 (pauseAudio 2 (playAudio 0 initialPlayerState))).pauseTime
        + (8 - 5) ∧
    (pauseAudio (20 + 3) (playAudio 20
        (playAudio 5 (pauseAudio 2 (playAudio 0 initialPlayerState))))).pauseTime
      = (playAudio 5 (pauseAudio 2 (playAudio 0 initialPlayerState))).pauseTime
        + 3 :=
  ⟨(stop_play_zero_pause_play_resume
      (playAudio 5 (pauseAudio 2 (playAudio 0 initialPlayerState))) 8 9 20 3
      { detune := 0
        startOffset := (pauseAudio 2 (playAudio 0 initialPlayerState)).pauseTime }
      rfl).1,
   (stop_play_zero_pause_play_resume
      (playAudio 5 (pauseAudio 2 (playAudio 0 initialPlayerState))) 8 9 20 3
      { detune := 0
        startOffset := (pauseAudio 2 (playAudio 0 initialPlayerState)).pauseTime }
      rfl).2.2.1,
   (stop_play_zero_pause_play_resume
      (playAudio 5 (pauseAudio 2 (playAudio 0 initialPlayerState))) 8 9 20 3
      { detune := 0
        startOffset := (pauseAudio 2 (playAudio 0 initialPlayerState)).pauseTime }
      rfl).2.2.2.2.1⟩

/-! ## Claim C7 -/

/-- Claim C7: a progress tick reports `min(elapsed / duration, 1)` as a
fraction (the source stores it scaled to a percentage), ticks never move the
reference start time or the accumulated offset, so over any two successive
ticks with non-decreasing context clock the reported progress is non-decreasing
while the transport stays playing; and `stopAudio` resets progress to 0. -/
theorem progress_monotone_and_stop_resets (s : PlayerState) (dur now now₁ now₂ : ℚ)
    (hdur : 0 < dur) (hle : now₁ ≤ now₂) :
    (updateProgress dur now₁ s).progress
      ≤ (updateProgress dur now₂ (updateProgress dur now₁ s)).progress ∧
    (updateProgress dur now s).startTime = s.startTime ∧
    (updateProgress dur now s).pauseTime = s.pauseTime ∧
    (updateProgress dur now s).progress
      = 100 * min ((now - s.startTime + s.pauseTime) / dur) 1 ∧
    (stopAudio s).progress = 0 := by
  refine ⟨?_, rfl, rfl, ?_, rfl⟩
  · simp only [updateProgress]
    gcongr
  · simp only [updateProgress]
    rcases le_total ((now - s.startTime + s.pauseTime) / dur) 1 with h | h
    · rw [min_eq_left (by nlinarith), min_eq_left h]
      ring
    · rw [min_eq_right (by nlinarith), min_eq_right h]
      ring

/-- Witness for C7: duration 10, ticks at times 1 and 2. -/
theorem progress_monotone_and_stop_resets_witness :
    (updateProgress 10 1 initialPlayerState).progress
      ≤ (updateProgress 10 2 (updateProgress 10 1 initialPlayerState)).progress ∧
    (stopAudio initialPlayerState).progress = 0 :=
  ⟨(progress_monotone_and_stop_resets initialPlayerState 10 3 1 2
      (by norm_num) (by norm_num)).1,
   (progress_monotone_and_stop_resets initialPlayerState 10 3 1 2
      (by norm_num) (by norm_num)).2.2.2.2⟩

/-! ## Claim C8 -/

/-- Claim C8: when an active source reaches its natural end, the completion
callback resets the paused offset to 0, stops the transport and reports 100%
progress; `pauseAudio` and `stopAudio` detach the callback together with the
source, so after an intentional halt the completion callback is a no-op. -/
theorem natural_end_resets_and_detach (s : PlayerState) (src : Source) (now : ℚ)
    (hsrc : s.source = some src) :
    naturalEnd s
      = { s with isPlaying := false, pauseTime := 0, progress := 100, source := none } ∧
    naturalEnd (pauseAudio now s) = pauseAudio now s ∧
    naturalEnd (stopAudio s) = stopAudio s := by
  refine ⟨?_, ?_, ?_⟩ <;> simp [naturalEnd, pauseAudio, stopAudio, hsrc]

/-- Witness for C8: a playing state whose source ends naturally. -/
theorem natural_end_resets_and_detach_witness :
    naturalEnd (playAudio 0 initialPlayerState)
      = { playAudio 0 initialPlayerState with
            isPlaying := false, pauseTime := 0, progress := 100, source := none } ∧
    naturalEnd (pauseAudio 5 (playAudio 0 initialPlayerState))
      = pauseAudio 5 (playAudio 0 initialPlayerState) :=
  ⟨(natural_end_resets_and_detach (playAudio 0 initialPlayerState)
      { detune := 0, startOffset := 0 } 5 rfl).1,
   (natural_end_resets_and_detach (playAudio 0 initialPlayerState)
      { detune := 0, startOffset := 0 } 5 rfl).2.1⟩

/-! ## Claim C10 -/

/-- Claim C10: calling `pauseAudio` when no source is active is a silent no-op:
the whole player state — paused offset, progress, pitch and transport — is
returned unchanged. -/
theorem pause_without_source_noop (s : PlayerState) (now : ℚ)
    (h : s.source = none) :
    pauseAudio now s = s := by
  simp [pauseAudio, h]

/-- Witness for C10. -/
theorem pause_without_source_noop_witness :
    pauseAudio 7 initialPlayerState = initialPlayerState :=
  pause_without_source_noop initialPlayerState 7 rfl

/-! ## Claim C9: supporting lemmas -/

/-- Every decoded byte is an 8-bit value (the `Uint8Array` store). -/
lemma decode_bounds (s : String) (bytes : List Nat) (h : decode s = some bytes) :
    ∀ x ∈ bytes, x < 256 := by
  unfold decode at h
  rcases hb : atobChars s.data with _ | codes
  · rw [hb] at h
    simp at h
  · rw [hb] at h
    have h2 : some (codes.map (fun y => y % 256)) = some bytes := h
    have h3 : codes.map (fun y => y % 256) = bytes := by
      injection h2
    subst h3
    intro x hx
    rcases List.mem_map.mp hx with ⟨y, _, rfl⟩
    exact Nat.mod_lt y (by norm_num)

/-- A 16-bit reinterpreted sample is in the signed 16-bit range. -/
lemma toInt16_bounds (lo hi : Nat) (hlo : lo < 256) (hhi : hi < 256) :
    -32768 ≤ toInt16 lo hi ∧ toInt16 lo hi ≤ 32767 := by
  unfold toInt16
  split <;> constructor <;> omega

/-- The `Int16Array` view has half as many entries as there are bytes. -/
lemma bytesToInt16List_length : ∀ (l : List Nat),
    (bytesToInt16List l).length = l.length / 2
  | [] => by simp [bytesToInt16List]
  | [x] => by simp [bytesToInt16List]
  | lo :: hi :: rest => by
      simp only [bytesToInt16List, List.length_cons]
      rw [bytesToInt16List_length rest]
      omega

/-- Entry `i` of the `Int16Array` view is the little-endian pair of bytes
`2 * i` and `2 * i + 1`. -/
lemma bytesToInt16List_getD : ∀ (l : List Nat) (i : Nat), i < l.length / 2 →
    (bytesToInt16List l).getD i 0
      = toInt16 (l.getD (2 * i) 0) (l.getD (2 * i + 1) 0)
  | [], i, h => by
      simp only [List.length_nil] at h
      omega
  | [x], i, h => by
      simp only [List.length_singleton] at h
      omega
  | lo :: hi :: rest, 0, h => by
      simp [bytesToInt16List, List.getD]
  | lo :: hi :: rest, i + 1, h => by
      have h2 : i < rest.length / 2 := by
        simp only [List.length_cons] at h
        omega
      have ih := bytesToInt16List_getD rest i h2
      simp only [bytesToInt16List]
      rw [show 2 * (i + 1) = 2 * i + 1 + 1 by ring]
      simp only [List.getD_cons_succ]
      exact ih

/-- All entries of the `Int16Array` view of 8-bit bytes are in the signed
16-bit range. -/
lemma bytesToInt16List_bounds : ∀ (l : List Nat), (∀ b ∈ l, b < 256) →
    ∀ v ∈ bytesToInt16List l, -32768 ≤ v ∧ v ≤ 32767
  | [], _ => by simp [bytesToInt16List]
  | [x], _ => by simp [bytesToInt16List]
  | lo :: hi :: rest, hb => by
      intro v hv
      simp only [bytesToInt16List, List.mem_cons] at hv
      rcases hv with rfl | hv
      · exact toInt16_bounds lo hi (hb lo (by simp)) (hb hi (by simp))
      · exact bytesToInt16List_bounds rest (fun b hbb => hb b (by simp [hbb])) v hv

/-- Element `i` of a mapped range, for `i` in range. -/
lemma map_range_getD (n : Nat) (f : Nat → ℚ) (i : Nat) (h : i < n) :
    ((List.range n).map f).getD i 0 = f i := by
  rw [List.getD_eq_getElem?_getD, List.getElem?_map, List.getElem?_range h]
  rfl

/-! ## Claim C9 -/

/-- Claim C9: for a base64 PCM16 mono payload, `generateSpeech` base64-decodes
the payload into raw bytes, reinterprets consecutive little-endian byte pairs
as 16-bit signed integers, and produces a one-channel buffer at 24000 Hz whose
sample `i` is the `i`-th 16-bit integer divided by 32768; every sample lies in
[-1, 1]. -/
theorem decoded_samples_normalized (k b64 : String) (bytes : List Nat)
    (buf : AudioBufferModel)
    (hdec : decode b64 = some bytes)
    (heven : bytes.length % 2 = 0)
    (hbuf : generateSpeech (some k) (Except.ok ⟨some b64⟩) = Except.ok buf) :
    buf.sampleRate = 24000 ∧
    buf.numChannels = 1 ∧
    buf.channels.length = 1 ∧
    buf.frameCount = bytes.length / 2 ∧
    (∀ i, i < bytes.length / 2 →
      (buf.channels.getD 0 []).getD i 0
        = ((toInt16 (bytes.getD (2 * i) 0) (bytes.getD (2 * i + 1) 0) : Int) : ℚ) / 32768) ∧
    (∀ ch ∈ buf.channels, ∀ q ∈ ch, -1 ≤ q ∧ q ≤ 1) := by
  have hne : b64 ≠ "" := by
    intro h0
    rw [h0] at hbuf
    simp [generateSpeech] at hbuf
  simp only [generateSpeech, hdec, if_neg hne, decodeAudioData, if_pos heven] at hbuf
  injection hbuf with hbuf
  subst hbuf
  have hlen : (bytesToInt16List bytes).length = bytes.length / 2 :=
    bytesToInt16List_length bytes
  have hr1 : List.range 1 = [0] := rfl
  refine ⟨rfl, rfl, by simp, ?_, ?_, ?_⟩
  · simp [hlen]
  · intro i hi
    have hi2 : i < (bytesToInt16List bytes).length / 1 := by
      rw [Nat.div_one, hlen]
      exact hi
    rw [hr1]
    simp only [List.map_cons, List.map_nil, List.getD_cons_zero]
    rw [map_range_getD _ _ i hi2]
    rw [show i * 1 + 0 = i by ring]
    rw [bytesToInt16List_getD bytes i hi]
  · intro ch hch q hq
    rw [hr1] at hch
    simp only [List.map_cons, List.map_nil, List.mem_singleton] at hch
    subst hch
    rcases List.mem_map.mp hq with ⟨i, hi, rfl⟩
    have hi' : i < (bytesToInt16List bytes).length := by
      rw [List.mem_range, Nat.div_one] at hi
      exact hi
    have hmem : (bytesToInt16List bytes).getD (i * 1 + 0) 0 ∈ bytesToInt16List bytes := by
      rw [show i * 1 + 0 = i by ring, List.getD_eq_getElem _ _ hi']
      exact List.getElem_mem hi'
    have hv := bytesToInt16List_bounds bytes (decode_bounds b64 bytes hdec) _ hmem
    have h1 : (-32768 : ℚ) ≤ ((bytesToInt16List bytes).getD (i * 1 + 0) 0 : Int) := by
      exact_mod_cast hv.1
    have h2 : (((bytesToInt16List bytes).getD (i * 1 + 0) 0 : Int) : ℚ) ≤ 32767 := by
      exact_mod_cast hv.2
    constructor
    · rw [le_div_iff₀ (by norm_num : (0 : ℚ) < 32768)]
      linarith
    · rw [div_le_one (by norm_num : (0 : ℚ) < 32768)]
      linarith

/-- Witness for C9: the payload `AAD/fw==` decodes to bytes [0, 0, 255, 127],
i.e. the samples 0 and 32767/32768. -/
theorem decoded_samples_normalized_witness :
    decode "AAD/fw==" = some [0, 0, 255, 127] ∧
    ∀ ch ∈ ({ numChannels := 1
              frameCount := 2
              sampleRate := 24000
              channels := [[0, 32767 / 32768]] } : AudioBufferModel).channels,
      ∀ q ∈ ch, -1 ≤ q ∧ q ≤ 1 :=
  ⟨by decide,
   (decoded_samples_normalized "k" "AAD/fw==" [0, 0, 255, 127]
      { numChannels := 1
        frameCount := 2
        sampleRate := 24000
        channels := [[0, 32767 / 32768]] }
      (by decide) (by decide)
      (by
        have hAtob : decode "AAD/fw==" = some [0, 0, 255, 127] := by decide
        have hne0 : ¬("AAD/fw==" = "") := by decide
        simp only [generateSpeech, hAtob, if_neg hne0, decodeAudioData]
        norm_num [bytesToInt16List, toInt16, List.range_succ])).2.2.2.2.2⟩

end CommuteBriefing
